import Mathlib

/-!
# Verification of the chess-anti-cheat risk scoring engine

A shallow embedding of the risk-scoring engine of the `mailen` repository
(`src/config.js`, `src/risk-score.js`, `src/metrics.js`,
`background/background.js`) together with proofs about its behaviour.

JavaScript numbers are modelled by exact rationals (`ℚ`), counts by `ℕ`,
and the JavaScript `NaN` that can appear in `highAccuracyPercentage` by
`Option ℚ` (`none` = NaN).  Fallible lookups are modelled with `Option`.
-/

set_option maxHeartbeats 1000000

namespace ChessAntiCheat

/-! ## Configuration constants (`src/config.js`) -/

namespace config

namespace WEIGHTS

def OVERALL_WINRATE : ℚ := 0.35

def RECENT_WINRATE : ℚ := 0.35

def HIGH_ACCURACY : ℚ := 0.30

end WEIGHTS

namespace THRESHOLDS

def ACCOUNT_AGE_DAYS : ℤ := 60

def WEIGHTING_K : ℚ := 20

def MIN_GAMES : ℕ := 5

def ACCOUNT_AGE_MULTIPLIER : ℚ := 1.5

end THRESHOLDS

namespace WINRATE_THRESHOLDS

def LOW_WINRATE_THRESHOLD : ℚ := 0.5

def MEDIUM_WINRATE_THRESHOLD : ℚ := 0.6

def HIGH_WINRATE_THRESHOLD : ℚ := 0.7

def BASE_SCORE : ℚ := 50

def EXTENDED_SCORE : ℚ := 100

def SCALE_FACTOR : ℚ := 0.1

end WINRATE_THRESHOLDS

namespace HIGH_ACCURACY_THRESHOLDS

def MODERATE_SUSPICION_THRESHOLD : ℚ := 10

def HIGH_SUSPICION_THRESHOLD : ℚ := 20

def EXTREME_SUSPICION_THRESHOLD : ℚ := 30

def MODERATE_MAX_SCORE : ℚ := 50

def HIGH_MAX_SCORE : ℚ := 100

def EXTREME_SCORE_INCREMENT : ℚ := 50

def EXTREME_SCORE_STEP : ℚ := 5

end HIGH_ACCURACY_THRESHOLDS

/-- A risk tier as defined in `config.js` (`RISK_LEVELS`). -/
structure RiskLevel where
  min : ℤ
  max : ℤ
  color : String
  label : String
deriving DecidableEq

namespace RISK_LEVELS

def LOW : RiskLevel := ⟨0, 30, "#4CAF50", "Low Risk"⟩

def MODERATE : RiskLevel := ⟨31, 50, "#FFC107", "Moderate Risk"⟩

def HIGH : RiskLevel := ⟨51, 70, "#FF9800", "High Risk"⟩

def VERY_HIGH : RiskLevel := ⟨71, 100, "#F44336", "Very High Risk"⟩

end RISK_LEVELS

end config

open config config.WEIGHTS config.THRESHOLDS config.WINRATE_THRESHOLDS
open config.HIGH_ACCURACY_THRESHOLDS

/-! ## Weight memoization (`src/risk-score.js`, `calculateWeight`)

The source keeps a module-level `Map` from the sample size `n` to the
computed weight, and reads `THRESHOLDS.WEIGHTING_K` on every call.  The
cache is modelled as an association list that is threaded explicitly. -/

/-- Association-list lookup modelling `weightCache.has` / `weightCache.get`. -/
def lookupWeight (n : ℕ) : List (ℕ × ℚ) → Option ℚ
  | [] => none
  | (k, w) :: rest => if n = k then some w else lookupWeight n rest

/-- The function `calculateWeight` with the memoization cache made explicit: return the
cached value when present, otherwise compute `n / (n + K)` and extend the
cache.  `K` is the value of `THRESHOLDS.WEIGHTING_K` read at call time. -/
def calculateWeightCached (weightCache : List (ℕ × ℚ)) (K : ℚ) (n : ℕ) :
    ℚ × List (ℕ × ℚ) :=
  match lookupWeight n weightCache with
  | some w => (w, weightCache)
  | none => ((n : ℚ) / ((n : ℚ) + K), ((n, (n : ℚ) / ((n : ℚ) + K)) :: weightCache))

/-- The pure value `calculateWeight(n)` computes in the source: the cache is
only a memo of this function of `n` (`weight = n / (n + THRESHOLDS.WEIGHTING_K)`). -/
def calculateWeight (n : ℕ) : ℚ :=
  (n : ℚ) / ((n : ℚ) + THRESHOLDS.WEIGHTING_K)

/-! ## Account-age factor (`src/risk-score.js`, `calculateAccountAgeFactor`) -/

def calculateAccountAgeFactor (accountAgeDays : ℤ) : ℚ :=
  if accountAgeDays ≤ THRESHOLDS.ACCOUNT_AGE_DAYS
  then THRESHOLDS.ACCOUNT_AGE_MULTIPLIER
  else 1

/-! ## Win-rate sub-score (`src/risk-score.js`, `calculateWinRateScore`) -/

def calculateWinRateScore (winRate : ℚ) (totalGames : ℕ) : ℚ :=
  if winRate ≤ LOW_WINRATE_THRESHOLD then 0
  else
    let score :=
      if HIGH_WINRATE_THRESHOLD < winRate then
        EXTENDED_SCORE + ((winRate - HIGH_WINRATE_THRESHOLD) / SCALE_FACTOR) * EXTENDED_SCORE
      else if MEDIUM_WINRATE_THRESHOLD < winRate then
        BASE_SCORE +
          ((winRate - MEDIUM_WINRATE_THRESHOLD) /
            (HIGH_WINRATE_THRESHOLD - MEDIUM_WINRATE_THRESHOLD)) * BASE_SCORE
      else
        ((winRate - LOW_WINRATE_THRESHOLD) /
          (MEDIUM_WINRATE_THRESHOLD - LOW_WINRATE_THRESHOLD)) * BASE_SCORE
    score * calculateWeight totalGames

/-! ## High-accuracy sub-score (`src/risk-score.js`, `calculateHighAccuracyScore`) -/

/-- The `accuracy` record of a format's metrics.  `highAccuracyPercentage`
is `none` when the JavaScript value would be `NaN`. -/
structure AccuracyData where
  gamesWithAccuracy : ℕ
  highAccuracyGames : ℕ
  highAccuracyPercentage : Option ℚ
deriving DecidableEq

/-- The `debug` record returned by `calculateHighAccuracyScore`; `reason`
is `none` on the normal path. -/
structure AccuracyScoreDebug where
  baseScore : ℚ
  sampleWeight : ℚ
  reason : Option String
deriving DecidableEq

structure AccuracyScoreResult where
  score : ℚ
  debug : AccuracyScoreDebug
deriving DecidableEq

/-- The function `calculateHighAccuracyScore(accuracyData, playerRating)`.  The
`playerRating` parameter is accepted but — exactly as in the source —
never used in the computation. -/
def calculateHighAccuracyScore (accuracyData : AccuracyData) (playerRating : ℚ) :
    AccuracyScoreResult :=
  match accuracyData.gamesWithAccuracy, accuracyData.highAccuracyPercentage with
  | 0, _ => ⟨0, ⟨0, 0, some "no_accuracy_data"⟩⟩
  | _ + 1, none => ⟨0, ⟨0, 0, some "no_accuracy_data"⟩⟩
  | g + 1, some highAccuracyPercentage =>
    if highAccuracyPercentage ≤ MODERATE_SUSPICION_THRESHOLD then
      ⟨0, ⟨0, 0, some "below_threshold"⟩⟩
    else
      let sampleWeight := calculateWeight (g + 1)
      let baseScore :=
        if EXTREME_SUSPICION_THRESHOLD < highAccuracyPercentage then
          HIGH_MAX_SCORE +
            (⌊(highAccuracyPercentage - EXTREME_SUSPICION_THRESHOLD) /
                EXTREME_SCORE_STEP⌋ : ℚ) * EXTREME_SCORE_INCREMENT
        else if HIGH_SUSPICION_THRESHOLD < highAccuracyPercentage then
          MODERATE_MAX_SCORE +
            ((highAccuracyPercentage - HIGH_SUSPICION_THRESHOLD) /
              (EXTREME_SUSPICION_THRESHOLD - HIGH_SUSPICION_THRESHOLD)) *
              MODERATE_MAX_SCORE
        else
          ((highAccuracyPercentage - MODERATE_SUSPICION_THRESHOLD) /
            (HIGH_SUSPICION_THRESHOLD - MODERATE_SUSPICION_THRESHOLD)) *
            MODERATE_MAX_SCORE
      ⟨baseScore * sampleWeight, ⟨baseScore, sampleWeight, none⟩⟩

/-! ## Per-format metrics (`src/metrics.js` output shape) -/

structure GamesCounts where
  total : ℕ
  wins : ℕ
  losses : ℕ
  draws : ℕ
deriving DecidableEq

structure RecentGames where
  total : ℕ
  wins : ℕ
  losses : ℕ
  draws : ℕ
  winrate : ℚ
deriving DecidableEq

structure FormatMetrics where
  currentRating : ℚ
  overallWinrate : ℚ
  gamesCounts : GamesCounts
  recentGames : RecentGames
  accuracy : AccuracyData
deriving DecidableEq

/-! ## Format risk aggregation (`src/risk-score.js`, `calculateFormatRiskScore`) -/

def calculateFormatRiskScore (formatMetrics : FormatMetrics) : ℚ :=
  let overallWinRateScore :=
    calculateWinRateScore (formatMetrics.overallWinrate / 100) formatMetrics.gamesCounts.total
  let recentWinRateScore :=
    calculateWinRateScore (formatMetrics.recentGames.winrate / 100) formatMetrics.recentGames.total
  let accuracyResult :=
    calculateHighAccuracyScore formatMetrics.accuracy formatMetrics.currentRating
  OVERALL_WINRATE * overallWinRateScore + RECENT_WINRATE * recentWinRateScore +
    HIGH_ACCURACY * accuracyResult.score

/-! ## Risk score selection (`src/risk-score.js`, `calculateRiskScore`) -/

/-- The `PlayerMetrics` object; `formats` keeps the JavaScript object's insertion order
as an association list. -/
structure PlayerMetrics where
  accountAge : ℤ
  formats : List (String × FormatMetrics)
  username : String
deriving DecidableEq

structure FormatScoreEntry where
  format : String
  score : ℚ
deriving DecidableEq

instance : Inhabited FormatScoreEntry := ⟨⟨"", 0⟩⟩

structure MaxScoreResult where
  value : ℤ
  format : Option String
  reason : Option String
deriving DecidableEq

structure RiskScoreResult where
  maxScore : MaxScoreResult
  otherFormats : List FormatScoreEntry
  accountAgeScore : ℚ
  accountAgeDays : ℤ
  username : String
deriving DecidableEq

/-- JavaScript `Math.round` (round half toward positive infinity). -/
def jsRound (x : ℚ) : ℤ := ⌊x + 1 / 2⌋

/-- The comparator `(a, b) => b.score - a.score` used by
`formatScores.sort` orders entries by descending score. -/
def scoreGE (a b : FormatScoreEntry) : Prop := b.score ≤ a.score

instance : DecidableRel scoreGE :=
  fun a b => inferInstanceAs (Decidable (b.score ≤ a.score))

instance : IsTotal FormatScoreEntry scoreGE := ⟨fun a b => le_total b.score a.score⟩

instance : IsTrans FormatScoreEntry scoreGE := ⟨fun _ _ _ h1 h2 => le_trans h2 h1⟩

/-- The per-format final score computed inside the `calculateRiskScore`
loop: `Math.min(100, accountAgeFactor * rawScore)`. -/
def formatFinalScore (accountAgeFactor : ℚ) (formatMetrics : FormatMetrics) : ℚ :=
  min 100 (accountAgeFactor * calculateFormatRiskScore formatMetrics)

/-- The `formatScores` array built by the loop in `calculateRiskScore`:
formats with `recentGames.total < THRESHOLDS.MIN_GAMES` are skipped
(`continue`), the rest get their capped final score. -/
def eligibleFormatScores (accountAgeFactor : ℚ)
    (formats : List (String × FormatMetrics)) : List FormatScoreEntry :=
  (formats.filter fun p => decide (¬ p.2.recentGames.total < THRESHOLDS.MIN_GAMES)).map
    fun p => ⟨p.1, formatFinalScore accountAgeFactor p.2⟩

def riskFormatScores (metrics : PlayerMetrics) : List FormatScoreEntry :=
  eligibleFormatScores (calculateAccountAgeFactor metrics.accountAge) metrics.formats

/-- The `formatScores` array after `formatScores.sort((a, b) => b.score - a.score)`:
a stable descending sort, modelled by insertion sort with `scoreGE`. -/
def rankedFormatScores (metrics : PlayerMetrics) : List FormatScoreEntry :=
  List.insertionSort scoreGE (riskFormatScores metrics)

/-- The sentinel result returned when no format is eligible. -/
def noRatedGamesResult (accountAgeFactor : ℚ) (metrics : PlayerMetrics) :
    RiskScoreResult :=
  ⟨⟨0, none, some "no_rated_games"⟩, [], accountAgeFactor, metrics.accountAge,
    metrics.username⟩

def calculateRiskScore (metrics : PlayerMetrics) : RiskScoreResult :=
  if (riskFormatScores metrics).isEmpty then
    noRatedGamesResult (calculateAccountAgeFactor metrics.accountAge) metrics
  else
    ⟨⟨jsRound (rankedFormatScores metrics).headI.score,
        some (rankedFormatScores metrics).headI.format, none⟩,
      (rankedFormatScores metrics).tail,
      calculateAccountAgeFactor metrics.accountAge, metrics.accountAge,
      metrics.username⟩

/-! ## Risk level classification (`src/risk-score.js`, `getRiskLevel`) -/

def getRiskLevel (score : ℤ) : RiskLevel :=
  if score ≤ RISK_LEVELS.LOW.max then RISK_LEVELS.LOW
  else if score ≤ RISK_LEVELS.MODERATE.max then RISK_LEVELS.MODERATE
  else if score ≤ RISK_LEVELS.HIGH.max then RISK_LEVELS.HIGH
  else RISK_LEVELS.VERY_HIGH

/-! ## Metrics validation (`src/metrics.js`, `validateMetrics`)

The JavaScript guard `!metrics.accountAge || metrics.accountAge < 0`
rejects the value `0` as well, because `!0` is `true`: this is embedded
faithfully below.  The `typeof x !== 'number'` checks are statically
satisfied in the typed embedding and therefore disappear. -/

/-- The range check the source performs on `accuracy.highAccuracyPercentage`
(`< 0` / `> 100`); both comparisons are false for `NaN` (`none`). -/
def pctOutOfRange : Option ℚ → Bool
  | none => false
  | some pct => decide (pct < 0) || decide (100 < pct)

/-- The per-format body of the `for (const format in metrics.formats)` loop. -/
def validateFormatMetrics (formatMetrics : FormatMetrics) : Bool :=
  if formatMetrics.overallWinrate < 0 ∨ 100 < formatMetrics.overallWinrate then false
  else if formatMetrics.gamesCounts.total ≠
      formatMetrics.gamesCounts.wins + formatMetrics.gamesCounts.losses +
        formatMetrics.gamesCounts.draws then false
  else if formatMetrics.accuracy.gamesWithAccuracy <
      formatMetrics.accuracy.highAccuracyGames then false
  else if pctOutOfRange formatMetrics.accuracy.highAccuracyPercentage then false
  else true

def validateMetrics (metrics : PlayerMetrics) : Bool :=
  if metrics.accountAge = 0 ∨ metrics.accountAge < 0 then false
  else if metrics.formats.isEmpty then false
  else metrics.formats.all fun p => validateFormatMetrics p.2

/-- The §3 `PlayerMetrics` data-model invariants, written from the spec's
words for comparison with `validateMetrics`: account age is a number of
days `≥ 0`, there is at least one format, and each format satisfies the
`FormatStats` invariants (`currentRating ≥ 0`, win rates within `[0,100]`,
`total = wins+losses+draws` for both counters,
`highAccuracyGames ≤ gamesWithAccuracy`,
`highAccuracyPercentage ∈ [0,100]`). -/
def specPlayerMetricsValid (metrics : PlayerMetrics) : Bool :=
  decide (0 ≤ metrics.accountAge) && !metrics.formats.isEmpty &&
    (metrics.formats.all fun p =>
      decide (0 ≤ p.2.currentRating) &&
      decide (0 ≤ p.2.overallWinrate) && decide (p.2.overallWinrate ≤ 100) &&
      decide (p.2.gamesCounts.total =
        p.2.gamesCounts.wins + p.2.gamesCounts.losses + p.2.gamesCounts.draws) &&
      decide (p.2.recentGames.total =
        p.2.recentGames.wins + p.2.recentGames.losses + p.2.recentGames.draws) &&
      decide (0 ≤ p.2.recentGames.winrate) && decide (p.2.recentGames.winrate ≤ 100) &&
      decide (p.2.accuracy.highAccuracyGames ≤ p.2.accuracy.gamesWithAccuracy) &&
      (match p.2.accuracy.highAccuracyPercentage with
       | none => false
       | some pct => decide (0 ≤ pct) && decide (pct ≤ 100)))

/-! ## Opponent history (`background/background.js`, `addToHistory`) -/

/-- The trimmed projection stored in `opponentHistory`. -/
structure HistoryEntry where
  username : String
  score : ℤ
  format : Option String
  riskLevel : RiskLevel
  analyzedAt : String
deriving DecidableEq

/-- The fields of `currentOpponentData` that `addToHistory` reads. -/
structure OpponentData where
  username : String
  maxScoreValue : ℤ
  maxScoreFormat : Option String
  riskLevel : RiskLevel
  analyzedAt : String
deriving DecidableEq

/-- The `historyEntry` object built inside `addToHistory`. -/
def historyEntryOf (opponentData : OpponentData) : HistoryEntry :=
  ⟨opponentData.username, opponentData.maxScoreValue, opponentData.maxScoreFormat,
    opponentData.riskLevel, opponentData.analyzedAt⟩

/-- JavaScript `String.prototype.toLowerCase()`, modelled as per-character
lowering over the string's characters. -/
def jsToLower (s : String) : String := ⟨s.data.map Char.toLower⟩

/-- The `findIndex` predicate of `addToHistory`:
`h.username.toLowerCase() === opponentData.username.toLowerCase()`. -/
def matchesUsername (opponentData : OpponentData) (h : HistoryEntry) : Bool :=
  jsToLower h.username == jsToLower opponentData.username

/-- The function `addToHistory`: look for an existing entry by case-insensitive
username; if found, overwrite it in place; otherwise prepend the new entry
and truncate to 50 entries.  (`findIndex` returning `-1` corresponds to
`findIdx` returning the length.) -/
def addToHistory (opponentData : OpponentData) (opponentHistory : List HistoryEntry) :
    List HistoryEntry :=
  let existingIndex := opponentHistory.findIdx (matchesUsername opponentData)
  if existingIndex < opponentHistory.length then
    opponentHistory.set existingIndex (historyEntryOf opponentData)
  else
    let newHistory := historyEntryOf opponentData :: opponentHistory
    if 50 < newHistory.length then newHistory.take 50 else newHistory

/-! ## Example inputs used by witnesses and counterexamples -/

/-- A fully §3-valid format: rating 1000, 5/5/0 lifetime record, six recent
games at 50 % win rate, and a 25 % high-accuracy percentage over four games. -/
def exampleFormatOK : FormatMetrics :=
  ⟨1000, 50, ⟨10, 5, 5, 0⟩, ⟨6, 3, 3, 0, 50⟩, ⟨4, 1, some 25⟩⟩

/-- A §3-valid `PlayerMetrics` for an account created today
(`accountAge = 0`). -/
def zeroAgeMetrics : PlayerMetrics :=
  ⟨0, [("chess_rapid", exampleFormatOK)], "newcomer"⟩

/-- Metrics with a negative account age (must be rejected). -/
def negativeAgeMetrics : PlayerMetrics :=
  ⟨-3, [("chess_rapid", exampleFormatOK)], "timetraveller"⟩

/-- Metrics violating the games-count invariant (`total ≠ wins+losses+draws`). -/
def badCountsMetrics : PlayerMetrics :=
  ⟨100, [("chess_rapid",
    ⟨1000, 50, ⟨9, 5, 5, 0⟩, ⟨6, 3, 3, 0, 50⟩, ⟨4, 1, some 25⟩⟩)], "fiddler"⟩

/-! ## Theorems -/

/-- C6 — The account-age factor is a flat step: `1.5` whenever
`accountAgeDays ≤ 60` (boundary inclusive) and `1.0` otherwise; in
particular `59 ↦ 1.5`, `60 ↦ 1.5`, `61 ↦ 1.0`. -/
theorem accountAgeFactor_flat_step :
    (∀ accountAgeDays : ℤ,
      calculateAccountAgeFactor accountAgeDays =
        if accountAgeDays ≤ 60 then 1.5 else 1)
    ∧ calculateAccountAgeFactor 59 = 1.5
    ∧ calculateAccountAgeFactor 60 = 1.5
    ∧ calculateAccountAgeFactor 61 = 1 := by
  refine ⟨fun accountAgeDays => rfl, ?_, ?_, ?_⟩ <;>
    norm_num [calculateAccountAgeFactor, config.THRESHOLDS.ACCOUNT_AGE_DAYS,
      config.THRESHOLDS.ACCOUNT_AGE_MULTIPLIER]

/-- C7 — `getRiskLevel` classifies an integer score in `0–100` into the
four tiers with boundaries at 30/50/70, and in particular maps
`30 ↦ LOW`, `31 ↦ MODERATE`, `50 ↦ MODERATE`, `51 ↦ HIGH`, `70 ↦ HIGH`,
`71 ↦ VERY_HIGH`.  The embedding is a pure function of the score alone. -/
theorem getRiskLevel_tiers (score : ℤ) :
    (score ≤ 30 → getRiskLevel score = RISK_LEVELS.LOW)
    ∧ (31 ≤ score → score ≤ 50 → getRiskLevel score = RISK_LEVELS.MODERATE)
    ∧ (51 ≤ score → score ≤ 70 → getRiskLevel score = RISK_LEVELS.HIGH)
    ∧ (71 ≤ score → score ≤ 100 → getRiskLevel score = RISK_LEVELS.VERY_HIGH) := by
  simp only [getRiskLevel, config.RISK_LEVELS.LOW, config.RISK_LEVELS.MODERATE,
    config.RISK_LEVELS.HIGH, config.RISK_LEVELS.VERY_HIGH]
  refine ⟨fun h1 => ?_, fun h1 h2 => ?_, fun h1 h2 => ?_, fun h1 h2 => ?_⟩ <;>
    split_ifs <;> first | rfl | omega

/-- Witness for C7 at the six boundary scores. -/
theorem getRiskLevel_tiers_witness :
    getRiskLevel 30 = RISK_LEVELS.LOW
    ∧ getRiskLevel 31 = RISK_LEVELS.MODERATE
    ∧ getRiskLevel 50 = RISK_LEVELS.MODERATE
    ∧ getRiskLevel 51 = RISK_LEVELS.HIGH
    ∧ getRiskLevel 70 = RISK_LEVELS.HIGH
    ∧ getRiskLevel 71 = RISK_LEVELS.VERY_HIGH :=
  ⟨(getRiskLevel_tiers 30).1 (by norm_num),
   (getRiskLevel_tiers 31).2.1 (by norm_num) (by norm_num),
   (getRiskLevel_tiers 50).2.1 (by norm_num) (by norm_num),
   (getRiskLevel_tiers 51).2.2.1 (by norm_num) (by norm_num),
   (getRiskLevel_tiers 70).2.2.1 (by norm_num) (by norm_num),
   (getRiskLevel_tiers 71).2.2.2 (by norm_num) (by norm_num)⟩

/-- C10 — `calculateHighAccuracyScore` is independent of the
`playerRating` argument it receives: two calls with the same
`accuracyData` and different ratings return the same score and the same
debug record. -/
theorem highAccuracyScore_rating_independent (accuracyData : AccuracyData)
    (rating₁ rating₂ : ℚ) :
    calculateHighAccuracyScore accuracyData rating₁ =
      calculateHighAccuracyScore accuracyData rating₂ := rfl

/-- C8 — `validateMetrics` rejects a §3-valid `PlayerMetrics` whose
`accountAge` is `0` (an account created today), because the JavaScript
guard `!metrics.accountAge` treats `0` as missing; it does reject a
negative account age and a broken games-count invariant as the claim
states. -/
theorem validateMetrics_rejects_zero_account_age :
    specPlayerMetricsValid zeroAgeMetrics = true
    ∧ validateMetrics zeroAgeMetrics = false
    ∧ validateMetrics negativeAgeMetrics = false
    ∧ validateMetrics badCountsMetrics = false := by
  refine ⟨?_, ?_, ?_, ?_⟩
  · norm_num [specPlayerMetricsValid, zeroAgeMetrics, exampleFormatOK]
  · norm_num [validateMetrics, zeroAgeMetrics]
  · norm_num [validateMetrics, negativeAgeMetrics]
  · norm_num [validateMetrics, badCountsMetrics, validateFormatMetrics,
      exampleFormatOK, pctOutOfRange]

/-- C2 — `calculateWinRateScore` is the spec's piecewise raw score
(0 below 0.5; linear 0→50 on (0.5, 0.6]; linear 50→100 on (0.6, 0.7];
`100 + ((winRate-0.7)/0.1)·100`, unbounded above, beyond 0.7) multiplied
by the confidence weight of `totalGames`.  The final conjunct exhibits the
unboundedness: for every bound `M` some win rate above 0.7 beats it. -/
theorem winRateScore_piecewise (winRate : ℚ) (totalGames : ℕ) :
    (winRate ≤ 0.5 → calculateWinRateScore winRate totalGames = 0)
    ∧ (0.5 < winRate → winRate ≤ 0.6 →
        calculateWinRateScore winRate totalGames =
          (((winRate - 0.5) / (0.6 - 0.5)) * 50) * calculateWeight totalGames)
    ∧ (0.6 < winRate → winRate ≤ 0.7 →
        calculateWinRateScore winRate totalGames =
          ((50 : ℚ) + ((winRate - 0.6) / (0.7 - 0.6)) * 50) * calculateWeight totalGames)
    ∧ (0.7 < winRate →
        calculateWinRateScore winRate totalGames =
          ((100 : ℚ) + ((winRate - 0.7) / 0.1) * 100) * calculateWeight totalGames)
    ∧ (∀ M : ℚ, M < calculateWinRateScore (0.7 + max 1 M / 10) 20) := by
  have hw20 : calculateWeight 20 = 1 / 2 := by
    norm_num [calculateWeight, config.THRESHOLDS.WEIGHTING_K]
  refine ⟨fun h1 => ?_, fun h1 h2 => ?_, fun h1 h2 => ?_, fun h1 => ?_, fun M => ?_⟩
  · simp only [calculateWinRateScore, config.WINRATE_THRESHOLDS.LOW_WINRATE_THRESHOLD]
    rw [if_pos h1]
  · simp only [calculateWinRateScore, config.WINRATE_THRESHOLDS.LOW_WINRATE_THRESHOLD,
      config.WINRATE_THRESHOLDS.MEDIUM_WINRATE_THRESHOLD,
      config.WINRATE_THRESHOLDS.HIGH_WINRATE_THRESHOLD,
      config.WINRATE_THRESHOLDS.BASE_SCORE]
    split_ifs <;> first | rfl | (exfalso; linarith)
  · simp only [calculateWinRateScore, config.WINRATE_THRESHOLDS.LOW_WINRATE_THRESHOLD,
      config.WINRATE_THRESHOLDS.MEDIUM_WINRATE_THRESHOLD,
      config.WINRATE_THRESHOLDS.HIGH_WINRATE_THRESHOLD,
      config.WINRATE_THRESHOLDS.BASE_SCORE]
    split_ifs <;> first | rfl | (exfalso; linarith)
  · simp only [calculateWinRateScore, config.WINRATE_THRESHOLDS.LOW_WINRATE_THRESHOLD,
      config.WINRATE_THRESHOLDS.HIGH_WINRATE_THRESHOLD,
      config.WINRATE_THRESHOLDS.SCALE_FACTOR,
      config.WINRATE_THRESHOLDS.EXTENDED_SCORE]
    split_ifs <;> first | rfl | (exfalso; linarith)
  · have hM : (1 : ℚ) ≤ max 1 M := le_max_left 1 M
    have hgt : (0.7 : ℚ) < 0.7 + max 1 M / 10 := by linarith
    have hval : calculateWinRateScore (0.7 + max 1 M / 10) 20 =
        ((100 : ℚ) + ((0.7 + max 1 M / 10 - 0.7) / 0.1) * 100) * calculateWeight 20 := by
      simp only [calculateWinRateScore, config.WINRATE_THRESHOLDS.LOW_WINRATE_THRESHOLD,
        config.WINRATE_THRESHOLDS.HIGH_WINRATE_THRESHOLD,
        config.WINRATE_THRESHOLDS.SCALE_FACTOR,
        config.WINRATE_THRESHOLDS.EXTENDED_SCORE]
      split_ifs <;> first | rfl | (exfalso; linarith)
    rw [hval, hw20]
    have hsimp : ((100 : ℚ) + ((0.7 + max 1 M / 10 - 0.7) / 0.1) * 100) * (1 / 2) =
        50 + 50 * max 1 M := by ring
    rw [hsimp]
    rcases le_total M 1 with h | h
    · rw [max_eq_left h]; linarith
    · rw [max_eq_right h]; linarith

/-- Witness for C2: one win rate in each piece, at `totalGames = 10`. -/
theorem winRateScore_piecewise_witness :
    calculateWinRateScore 0.4 10 = 0
    ∧ calculateWinRateScore 0.55 10 =
        (((0.55 - 0.5) / (0.6 - 0.5)) * 50) * calculateWeight 10
    ∧ calculateWinRateScore 0.65 10 =
        ((50 : ℚ) + ((0.65 - 0.6) / (0.7 - 0.6)) * 50) * calculateWeight 10
    ∧ calculateWinRateScore 0.8 10 =
        ((100 : ℚ) + ((0.8 - 0.7) / 0.1) * 100) * calculateWeight 10 :=
  ⟨(winRateScore_piecewise 0.4 10).1 (by norm_num),
   (winRateScore_piecewise 0.55 10).2.1 (by norm_num) (by norm_num),
   (winRateScore_piecewise 0.65 10).2.2.1 (by norm_num) (by norm_num),
   (winRateScore_piecewise 0.8 10).2.2.2.1 (by norm_num)⟩

/-- C3 — `calculateHighAccuracyScore` returns 0 with reason
`no_accuracy_data` when the sample is empty or the percentage is `NaN`;
0 with reason `below_threshold` when `pct ≤ 10`; a linear 0→50 ramp on
(10, 20]; a linear 50→100 ramp on (20, 30]; and the flat step
`100 + ⌊(pct-30)/5⌋·50` beyond 30; the final score is the raw base score
times the confidence weight of the sample size. -/
theorem highAccuracyScore_piecewise (accuracyData : AccuracyData) (playerRating : ℚ) :
    (accuracyData.gamesWithAccuracy = 0 ∨ accuracyData.highAccuracyPercentage = none →
        calculateHighAccuracyScore accuracyData playerRating =
          ⟨0, ⟨0, 0, some "no_accuracy_data"⟩⟩)
    ∧ (∀ pct : ℚ, accuracyData.highAccuracyPercentage = some pct →
        accuracyData.gamesWithAccuracy ≠ 0 →
        ((pct ≤ 10 →
            calculateHighAccuracyScore accuracyData playerRating =
              ⟨0, ⟨0, 0, some "below_threshold"⟩⟩)
          ∧ (10 < pct → pct ≤ 20 →
              calculateHighAccuracyScore accuracyData playerRating =
                ⟨(((pct - 10) / (20 - 10)) * 50) *
                    calculateWeight accuracyData.gamesWithAccuracy,
                  ⟨((pct - 10) / (20 - 10)) * 50,
                    calculateWeight accuracyData.gamesWithAccuracy, none⟩⟩)
          ∧ (20 < pct → pct ≤ 30 →
              calculateHighAccuracyScore accuracyData playerRating =
                ⟨((50 : ℚ) + ((pct - 20) / (30 - 20)) * 50) *
                    calculateWeight accuracyData.gamesWithAccuracy,
                  ⟨(50 : ℚ) + ((pct - 20) / (30 - 20)) * 50,
                    calculateWeight accuracyData.gamesWithAccuracy, none⟩⟩)
          ∧ (30 < pct →
              calculateHighAccuracyScore accuracyData playerRating =
                ⟨((100 : ℚ) + (⌊(pct - 30) / 5⌋ : ℚ) * 50) *
                    calculateWeight accuracyData.gamesWithAccuracy,
                  ⟨(100 : ℚ) + (⌊(pct - 30) / 5⌋ : ℚ) * 50,
                    calculateWeight accuracyData.gamesWithAccuracy, none⟩⟩))) := by
  obtain ⟨gamesWithAccuracy, highAccuracyGames, highAccuracyPercentage⟩ := accuracyData
  constructor
  · rintro (h | h)
    · subst h; rfl
    · subst h
      cases gamesWithAccuracy <;> rfl
  · rintro pct rfl hne
    obtain ⟨g, rfl⟩ : ∃ g, gamesWithAccuracy = g + 1 :=
      ⟨gamesWithAccuracy - 1, (Nat.succ_pred_eq_of_pos (Nat.pos_of_ne_zero hne)).symm⟩
    refine ⟨fun h1 => ?_, fun h1 h2 => ?_, fun h1 h2 => ?_, fun h1 => ?_⟩ <;>
      · simp only [calculateHighAccuracyScore,
          config.HIGH_ACCURACY_THRESHOLDS.MODERATE_SUSPICION_THRESHOLD,
          config.HIGH_ACCURACY_THRESHOLDS.HIGH_SUSPICION_THRESHOLD,
          config.HIGH_ACCURACY_THRESHOLDS.EXTREME_SUSPICION_THRESHOLD,
          config.HIGH_ACCURACY_THRESHOLDS.MODERATE_MAX_SCORE,
          config.HIGH_ACCURACY_THRESHOLDS.HIGH_MAX_SCORE,
          config.HIGH_ACCURACY_THRESHOLDS.EXTREME_SCORE_INCREMENT,
          config.HIGH_ACCURACY_THRESHOLDS.EXTREME_SCORE_STEP]
        split_ifs <;> first | rfl | (exfalso; linarith)

/-- Witness for C3: one sample in each piece. -/
theorem highAccuracyScore_piecewise_witness :
    calculateHighAccuracyScore ⟨0, 0, some 50⟩ 1200 = ⟨0, ⟨0, 0, some "no_accuracy_data"⟩⟩
    ∧ calculateHighAccuracyScore ⟨10, 0, some 5⟩ 1200 = ⟨0, ⟨0, 0, some "below_threshold"⟩⟩
    ∧ calculateHighAccuracyScore ⟨10, 2, some 15⟩ 1200 =
        ⟨(((15 - 10) / (20 - 10)) * 50) * calculateWeight 10,
          ⟨((15 - 10) / (20 - 10)) * 50, calculateWeight 10, none⟩⟩
    ∧ calculateHighAccuracyScore ⟨10, 5, some 25⟩ 1200 =
        ⟨((50 : ℚ) + ((25 - 20) / (30 - 20)) * 50) * calculateWeight 10,
          ⟨(50 : ℚ) + ((25 - 20) / (30 - 20)) * 50, calculateWeight 10, none⟩⟩
    ∧ calculateHighAccuracyScore ⟨10, 8, some 37⟩ 1200 =
        ⟨((100 : ℚ) + (⌊((37 : ℚ) - 30) / 5⌋ : ℚ) * 50) * calculateWeight 10,
          ⟨(100 : ℚ) + (⌊((37 : ℚ) - 30) / 5⌋ : ℚ) * 50, calculateWeight 10, none⟩⟩ :=
  ⟨(highAccuracyScore_piecewise ⟨0, 0, some 50⟩ 1200).1 (Or.inl rfl),
   ((highAccuracyScore_piecewise ⟨10, 0, some 5⟩ 1200).2 5 rfl (by norm_num)).1 (by norm_num),
   ((highAccuracyScore_piecewise ⟨10, 2, some 15⟩ 1200).2 15 rfl (by norm_num)).2.1
     (by norm_num) (by norm_num),
   ((highAccuracyScore_piecewise ⟨10, 5, some 25⟩ 1200).2 25 rfl (by norm_num)).2.2.1
     (by norm_num) (by norm_num),
   ((highAccuracyScore_piecewise ⟨10, 8, some 37⟩ 1200).2 37 rfl (by norm_num)).2.2.2
     (by norm_num)⟩

/-- Every cache entry was computed as `k / (k + K)` for the configured `K`.
This holds for every cache state the program can reach, because
`THRESHOLDS.WEIGHTING_K` is a fixed constant. -/
def WeightCacheInv (K : ℚ) (weightCache : List (ℕ × ℚ)) : Prop :=
  ∀ p ∈ weightCache, p.2 = (p.1 : ℚ) / ((p.1 : ℚ) + K)

lemma lookupWeight_mem (n : ℕ) (w : ℚ) (weightCache : List (ℕ × ℚ))
    (h : lookupWeight n weightCache = some w) : (n, w) ∈ weightCache := by
  induction weightCache with
  | nil => simp [lookupWeight] at h
  | cons p rest ih =>
    obtain ⟨k, v⟩ := p
    rw [lookupWeight] at h
    split_ifs at h with hk
    · obtain rfl : v = w := by injection h
      subst hk
      exact List.mem_cons_self _ _
    · exact List.mem_cons_of_mem _ (ih h)

/-- C4 — With a cache whose entries were all computed under the
configured constant `K` (which is the case for every reachable cache,
since `K` never changes), the memoized `calculateWeight` returns
`n / (n + K)`, preserves the cache invariant (so cached values cannot leak
into a different `K` configuration), agrees with the pure
`calculateWeight` for the shipped `K`, gives weight 0 to `n = 0`, is
strictly increasing in `n`, and tends to 1 as `n → ∞`. -/
theorem calculateWeight_memoized (K : ℚ) (hK : 0 < K)
    (weightCache : List (ℕ × ℚ)) (hinv : WeightCacheInv K weightCache) (n : ℕ) :
    (calculateWeightCached weightCache K n).1 = (n : ℚ) / ((n : ℚ) + K)
    ∧ WeightCacheInv K (calculateWeightCached weightCache K n).2
    ∧ (K = THRESHOLDS.WEIGHTING_K →
        (calculateWeightCached weightCache K n).1 = calculateWeight n)
    ∧ (calculateWeightCached weightCache K 0).1 = 0
    ∧ (∀ a b : ℕ, a < b →
        (calculateWeightCached weightCache K a).1 <
          (calculateWeightCached weightCache K b).1)
    ∧ (∀ ε : ℚ, 0 < ε → ∃ N : ℕ, ∀ m : ℕ, N ≤ m →
        1 - ε < (calculateWeightCached weightCache K m).1
        ∧ (calculateWeightCached weightCache K m).1 < 1) := by
  have hpos : ∀ m : ℕ, (0 : ℚ) < (m : ℚ) + K :=
    fun m => add_pos_of_nonneg_of_pos (Nat.cast_nonneg m) hK
  have hval : ∀ m : ℕ,
      (calculateWeightCached weightCache K m).1 = (m : ℚ) / ((m : ℚ) + K) := by
    intro m
    unfold calculateWeightCached
    cases hcase : lookupWeight m weightCache with
    | none => rfl
    | some w => simpa using hinv _ (lookupWeight_mem _ _ _ hcase)
  refine ⟨hval n, ?_, ?_, ?_, ?_, ?_⟩
  · unfold calculateWeightCached
    cases hcase : lookupWeight n weightCache with
    | none =>
      intro p hp
      rcases List.mem_cons.mp hp with rfl | hp
      · rfl
      · exact hinv p hp
    | some w => exact hinv
  · intro hKdef
    rw [hval n, calculateWeight, hKdef]
  · rw [hval 0]
    simp
  · intro a b hab
    rw [hval a, hval b, div_lt_div_iff₀ (hpos a) (hpos b)]
    have hcast : (a : ℚ) < (b : ℚ) := by exact_mod_cast hab
    nlinarith [mul_lt_mul_of_pos_right hcast hK]
  · intro ε hε
    refine ⟨⌈K / ε⌉₊, fun m hm => ?_⟩
    have hKm : K / ε ≤ (m : ℚ) := by
      calc K / ε ≤ (⌈K / ε⌉₊ : ℚ) := Nat.le_ceil _
      _ ≤ (m : ℚ) := by exact_mod_cast hm
    have hKε : K ≤ ε * (m : ℚ) := by
      rw [div_le_iff₀ hε] at hKm
      linarith
    rw [hval m]
    constructor
    · rw [lt_div_iff₀ (hpos m)]
      nlinarith [mul_pos hε hK]
    · rw [div_lt_one (hpos m)]
      linarith

/-- Witness for C4 at `K = 20` (the configured constant), the empty
cache, and `n = 5`. -/
theorem calculateWeight_memoized_witness :
    (calculateWeightCached [] 20 5).1 = ((5 : ℕ) : ℚ) / (((5 : ℕ) : ℚ) + 20)
    ∧ WeightCacheInv 20 (calculateWeightCached [] 20 5).2
    ∧ (20 = THRESHOLDS.WEIGHTING_K →
        (calculateWeightCached [] 20 5).1 = calculateWeight 5)
    ∧ (calculateWeightCached [] 20 0).1 = 0
    ∧ (∀ a b : ℕ, a < b →
        (calculateWeightCached [] 20 a).1 < (calculateWeightCached [] 20 b).1)
    ∧ (∀ ε : ℚ, 0 < ε → ∃ N : ℕ, ∀ m : ℕ, N ≤ m →
        1 - ε < (calculateWeightCached [] 20 m).1
        ∧ (calculateWeightCached [] 20 m).1 < 1) :=
  calculateWeight_memoized 20 (by norm_num) []
    (fun p hp => absurd hp (List.not_mem_nil p)) 5

lemma calculateWeight_nonneg (n : ℕ) : 0 ≤ calculateWeight n := by
  rw [calculateWeight, config.THRESHOLDS.WEIGHTING_K]
  positivity

lemma calculateWinRateScore_nonneg (winRate : ℚ) (totalGames : ℕ) :
    0 ≤ calculateWinRateScore winRate totalGames := by
  have hw := calculateWeight_nonneg totalGames
  rw [calculateWinRateScore]
  simp only [config.WINRATE_THRESHOLDS.LOW_WINRATE_THRESHOLD,
    config.WINRATE_THRESHOLDS.MEDIUM_WINRATE_THRESHOLD,
    config.WINRATE_THRESHOLDS.HIGH_WINRATE_THRESHOLD,
    config.WINRATE_THRESHOLDS.BASE_SCORE,
    config.WINRATE_THRESHOLDS.EXTENDED_SCORE,
    config.WINRATE_THRESHOLDS.SCALE_FACTOR]
  split_ifs with h1 h2 h3
  · exact le_refl 0
  · have ht : (0 : ℚ) ≤ (winRate - 0.7) / 0.1 :=
      div_nonneg (by linarith) (by norm_num)
    exact mul_nonneg (by linarith) hw
  · have ht : (0 : ℚ) ≤ (winRate - 0.6) / (0.7 - 0.6) :=
      div_nonneg (by linarith) (by norm_num)
    exact mul_nonneg (by linarith) hw
  · have ht : (0 : ℚ) ≤ (winRate - 0.5) / (0.6 - 0.5) :=
      div_nonneg (by linarith) (by norm_num)
    exact mul_nonneg (by linarith) hw

lemma calculateHighAccuracyScore_nonneg (accuracyData : AccuracyData)
    (playerRating : ℚ) :
    0 ≤ (calculateHighAccuracyScore accuracyData playerRating).score := by
  obtain ⟨gamesWithAccuracy, highAccuracyGames, highAccuracyPercentage⟩ := accuracyData
  cases gamesWithAccuracy with
  | zero => exact le_refl 0
  | succ g =>
    cases highAccuracyPercentage with
    | none => exact le_refl 0
    | some pct =>
      have hw := calculateWeight_nonneg (g + 1)
      rw [calculateHighAccuracyScore]
      simp only [config.HIGH_ACCURACY_THRESHOLDS.MODERATE_SUSPICION_THRESHOLD,
        config.HIGH_ACCURACY_THRESHOLDS.HIGH_SUSPICION_THRESHOLD,
        config.HIGH_ACCURACY_THRESHOLDS.EXTREME_SUSPICION_THRESHOLD,
        config.HIGH_ACCURACY_THRESHOLDS.MODERATE_MAX_SCORE,
        config.HIGH_ACCURACY_THRESHOLDS.HIGH_MAX_SCORE,
        config.HIGH_ACCURACY_THRESHOLDS.EXTREME_SCORE_INCREMENT,
        config.HIGH_ACCURACY_THRESHOLDS.EXTREME_SCORE_STEP]
      split_ifs with h1 h2 h3
      · exact le_refl 0
      · have hfl : (0 : ℤ) ≤ ⌊(pct - 30) / 5⌋ :=
          Int.floor_nonneg.mpr (div_nonneg (by linarith) (by norm_num))
        have hc : (0 : ℚ) ≤ (⌊(pct - 30) / 5⌋ : ℚ) := by exact_mod_cast hfl
        exact mul_nonneg (by linarith) hw
      · have ht : (0 : ℚ) ≤ (pct - 20) / (30 - 20) :=
          div_nonneg (by linarith) (by norm_num)
        exact mul_nonneg (by linarith) hw
      · have ht : (0 : ℚ) ≤ (pct - 10) / (20 - 10) :=
          div_nonneg (by linarith) (by norm_num)
        exact mul_nonneg (by linarith) hw

lemma calculateAccountAgeFactor_nonneg (accountAgeDays : ℤ) :
    0 ≤ calculateAccountAgeFactor accountAgeDays := by
  rw [calculateAccountAgeFactor]
  split_ifs <;> norm_num [config.THRESHOLDS.ACCOUNT_AGE_MULTIPLIER]

lemma calculateFormatRiskScore_nonneg (formatMetrics : FormatMetrics) :
    0 ≤ calculateFormatRiskScore formatMetrics := by
  rw [calculateFormatRiskScore]
  have h1 := calculateWinRateScore_nonneg (formatMetrics.overallWinrate / 100)
    formatMetrics.gamesCounts.total
  have h2 := calculateWinRateScore_nonneg (formatMetrics.recentGames.winrate / 100)
    formatMetrics.recentGames.total
  have h3 := calculateHighAccuracyScore_nonneg formatMetrics.accuracy
    formatMetrics.currentRating
  have w1 : (0 : ℚ) ≤ OVERALL_WINRATE := by norm_num [config.WEIGHTS.OVERALL_WINRATE]
  have w2 : (0 : ℚ) ≤ RECENT_WINRATE := by norm_num [config.WEIGHTS.RECENT_WINRATE]
  have w3 : (0 : ℚ) ≤ HIGH_ACCURACY := by norm_num [config.WEIGHTS.HIGH_ACCURACY]
  have := mul_nonneg w1 h1
  have := mul_nonneg w2 h2
  have := mul_nonneg w3 h3
  linarith

/-- C1 — The per-format risk score used by the selector equals
`min(100, accountAgeFactor · weightedSum)` with
`weightedSum = 0.35·overall + 0.35·recent + 0.30·accuracy`: the cap is
applied exactly once, to the product of the age factor with the uncapped
weighted sum (never to the sum alone), and the resulting score always lies
in `[0, 100]`. -/
theorem formatScore_capped_once (accountAgeDays : ℤ) (formatMetrics : FormatMetrics) :
    formatFinalScore (calculateAccountAgeFactor accountAgeDays) formatMetrics =
      min 100 (calculateAccountAgeFactor accountAgeDays *
        (0.35 * calculateWinRateScore (formatMetrics.overallWinrate / 100)
            formatMetrics.gamesCounts.total
          + 0.35 * calculateWinRateScore (formatMetrics.recentGames.winrate / 100)
            formatMetrics.recentGames.total
          + 0.30 * (calculateHighAccuracyScore formatMetrics.accuracy
            formatMetrics.currentRating).score))
    ∧ 0 ≤ formatFinalScore (calculateAccountAgeFactor accountAgeDays) formatMetrics
    ∧ formatFinalScore (calculateAccountAgeFactor accountAgeDays) formatMetrics ≤ 100 := by
  refine ⟨rfl, ?_, min_le_left _ _⟩
  refine le_min (by norm_num) ?_
  exact mul_nonneg (calculateAccountAgeFactor_nonneg accountAgeDays)
    (calculateFormatRiskScore_nonneg formatMetrics)

/-- Filtering `orderedInsert` by an exact score keeps the inserted entry in
front of the equal-scored entries already present (stability of the
insertion). -/
lemma filter_orderedInsert_score (s : ℚ) (x : FormatScoreEntry)
    (l : List FormatScoreEntry) :
    (List.orderedInsert scoreGE x l).filter (fun e => decide (e.score = s)) =
      if x.score = s then x :: l.filter (fun e => decide (e.score = s))
      else l.filter (fun e => decide (e.score = s)) := by
  induction l with
  | nil =>
    rw [List.orderedInsert]
    by_cases hx : x.score = s <;> simp [List.filter, hx]
  | cons y ys ih =>
    rw [List.orderedInsert]
    by_cases hr : scoreGE x y
    · rw [if_pos hr]
      by_cases hx : x.score = s <;> simp [List.filter_cons, hx]
    · rw [if_neg hr]
      have hxy : x.score < y.score := lt_of_not_le hr
      by_cases hx : x.score = s
      · have hy : ¬ y.score = s := by rw [← hx]; exact ne_of_gt hxy
        rw [if_pos hx]
        simp only [List.filter_cons, ih, if_pos hx]
        simp [hy]
      · rw [if_neg hx]
        simp only [List.filter_cons, ih, if_neg hx]

/-- The stable descending sort leaves the relative order of equal-scored
entries unchanged: filtering by any exact score gives the same sublist
before and after sorting. -/
lemma filter_insertionSort_score (s : ℚ) (l : List FormatScoreEntry) :
    (List.insertionSort scoreGE l).filter (fun e => decide (e.score = s)) =
      l.filter (fun e => decide (e.score = s)) := by
  induction l with
  | nil => rfl
  | cons x xs ih =>
    rw [List.insertionSort, filter_orderedInsert_score, List.filter_cons]
    by_cases hx : x.score = s <;> simp [hx, ih]

lemma rankedFormatScores_def (metrics : PlayerMetrics) :
    rankedFormatScores metrics =
      List.insertionSort scoreGE (riskFormatScores metrics) := rfl

/-- Shape of `calculateRiskScore` when the sorted eligible list is nonempty. -/
lemma calculateRiskScore_eq_of_ranked (metrics : PlayerMetrics)
    (hd : FormatScoreEntry) (tl : List FormatScoreEntry)
    (h : rankedFormatScores metrics = hd :: tl) :
    calculateRiskScore metrics =
      ⟨⟨jsRound hd.score, some hd.format, none⟩, tl,
        calculateAccountAgeFactor metrics.accountAge, metrics.accountAge,
        metrics.username⟩ := by
  have hne : riskFormatScores metrics ≠ [] := by
    intro h0
    rw [rankedFormatScores, h0] at h
    exact List.cons_ne_nil hd tl h.symm
  rw [calculateRiskScore, if_neg (by simp [hne]), h]
  rfl

/-- Entries of `riskFormatScores` come from formats that passed the
`MIN_GAMES` filter; with distinct format keys, a format below the
threshold can therefore not appear. -/
lemma riskFormatScores_format_ne (metrics : PlayerMetrics)
    (hnd : (metrics.formats.map Prod.fst).Nodup)
    (p : String × FormatMetrics) (hp : p ∈ metrics.formats)
    (hlt : p.2.recentGames.total < THRESHOLDS.MIN_GAMES) :
    ∀ e ∈ riskFormatScores metrics, e.format ≠ p.1 := by
  intro e he hfmt
  rw [riskFormatScores, eligibleFormatScores] at he
  obtain ⟨q, hq, rfl⟩ := List.mem_map.mp he
  obtain ⟨hqmem, hqpred⟩ := List.mem_filter.mp hq
  have hq5 : ¬ q.2.recentGames.total < THRESHOLDS.MIN_GAMES := by
    simpa using hqpred
  have hqp : q = p :=
    List.inj_on_of_nodup_map hnd hqmem hp hfmt
  rw [hqp] at hq5
  exact hq5 hlt

/-- C5 — `calculateRiskScore` discards every format whose
`recentGames.total` is below `MIN_GAMES` (such a format can appear neither
as the headline format nor among `otherFormats`); with no eligible format
it returns the `no_rated_games` sentinel; otherwise the headline score is
the highest eligible per-format score rounded to the nearest integer and
`otherFormats` is the rest in descending score order, equal scores keeping
their input order (the sort is stable), the ranked list being a
permutation of the eligible scores. -/
theorem riskScore_selector (metrics : PlayerMetrics)
    (hnd : (metrics.formats.map Prod.fst).Nodup) :
    (riskFormatScores metrics = [] →
        calculateRiskScore metrics =
          noRatedGamesResult (calculateAccountAgeFactor metrics.accountAge) metrics)
    ∧ (∀ p ∈ metrics.formats, p.2.recentGames.total < THRESHOLDS.MIN_GAMES →
        (calculateRiskScore metrics).maxScore.format ≠ some p.1
        ∧ ∀ e ∈ (calculateRiskScore metrics).otherFormats, e.format ≠ p.1)
    ∧ (∀ hd tl, rankedFormatScores metrics = hd :: tl →
        (calculateRiskScore metrics).maxScore =
          ⟨jsRound hd.score, some hd.format, none⟩
        ∧ (calculateRiskScore metrics).otherFormats = tl
        ∧ (∀ e ∈ riskFormatScores metrics, e.score ≤ hd.score)
        ∧ List.Sorted scoreGE (hd :: tl)
        ∧ (hd :: tl).Perm (riskFormatScores metrics)
        ∧ (∀ s : ℚ, (hd :: tl).filter (fun e => decide (e.score = s)) =
            (riskFormatScores metrics).filter (fun e => decide (e.score = s)))) := by
  refine ⟨?_, ?_, ?_⟩
  · intro h
    rw [calculateRiskScore, if_pos (by simp [h])]
  · intro p hp hlt
    have hne := riskFormatScores_format_ne metrics hnd p hp hlt
    cases hranked : rankedFormatScores metrics with
    | nil =>
      have hempty : riskFormatScores metrics = [] := by
        have hp2 := List.perm_insertionSort scoreGE (riskFormatScores metrics)
        rw [← rankedFormatScores_def, hranked] at hp2
        exact hp2.symm.eq_nil
      rw [calculateRiskScore, if_pos (by simp [hempty])]
      exact ⟨by simp [noRatedGamesResult], by simp [noRatedGamesResult]⟩
    | cons hd tl =>
      have hperm : (hd :: tl).Perm (riskFormatScores metrics) := by
        have hp2 := List.perm_insertionSort scoreGE (riskFormatScores metrics)
        rw [← rankedFormatScores_def, hranked] at hp2
        exact hp2
      rw [calculateRiskScore_eq_of_ranked metrics hd tl hranked]
      constructor
      · show some hd.format ≠ some p.1
        intro hcontra
        have hhd : hd ∈ riskFormatScores metrics :=
          hperm.mem_iff.mp (List.mem_cons_self hd tl)
        exact hne hd hhd (by injection hcontra)
      · show ∀ e ∈ tl, e.format ≠ p.1
        intro e he
        have hetl : e ∈ riskFormatScores metrics :=
          hperm.mem_iff.mp (List.mem_cons_of_mem hd he)
        exact hne e hetl
  · intro hd tl hranked
    have hperm : (hd :: tl).Perm (riskFormatScores metrics) := by
      have hp2 := List.perm_insertionSort scoreGE (riskFormatScores metrics)
      rw [← rankedFormatScores_def, hranked] at hp2
      exact hp2
    have hsorted : List.Sorted scoreGE (hd :: tl) := by
      have hs2 := List.sorted_insertionSort scoreGE (riskFormatScores metrics)
      rw [← rankedFormatScores_def, hranked] at hs2
      exact hs2
    rw [calculateRiskScore_eq_of_ranked metrics hd tl hranked]
    refine ⟨rfl, rfl, ?_, hsorted, hperm, ?_⟩
    · intro e he
      rcases List.mem_cons.mp (hperm.mem_iff.mpr he) with rfl | hetl
      · exact le_refl _
      · exact List.rel_of_sorted_cons hsorted e hetl
    · intro s
      have hf := filter_insertionSort_score s (riskFormatScores metrics)
      rw [← rankedFormatScores_def, hranked] at hf
      exact hf

/-- An eligible format (6 recent games) whose every signal is zero. -/
def eligibleZeroFormat : FormatMetrics :=
  ⟨1000, 0, ⟨0, 0, 0, 0⟩, ⟨6, 0, 6, 0, 0⟩, ⟨0, 0, some 0⟩⟩

/-- A format with only 3 recent games (below `MIN_GAMES`). -/
def smallSampleFormat : FormatMetrics :=
  ⟨1000, 0, ⟨0, 0, 0, 0⟩, ⟨3, 0, 3, 0, 0⟩, ⟨0, 0, some 0⟩⟩

/-- A player whose only format has too few recent games. -/
def noneEligibleMetrics : PlayerMetrics :=
  ⟨30, [("chess_rapid", smallSampleFormat)], "nobody"⟩

/-- A player with two eligible formats and one below `MIN_GAMES`. -/
def selectorMetrics : PlayerMetrics :=
  ⟨100, [("chess_rapid", eligibleZeroFormat), ("chess_blitz", eligibleZeroFormat),
    ("chess_bullet", smallSampleFormat)], "somebody"⟩

def selectorEntryRapid : FormatScoreEntry :=
  ⟨"chess_rapid", formatFinalScore (calculateAccountAgeFactor 100) eligibleZeroFormat⟩

def selectorEntryBlitz : FormatScoreEntry :=
  ⟨"chess_blitz", formatFinalScore (calculateAccountAgeFactor 100) eligibleZeroFormat⟩

lemma selector_ranked :
    rankedFormatScores selectorMetrics = [selectorEntryRapid, selectorEntryBlitz] := by
  have h1 : rankedFormatScores selectorMetrics =
      List.orderedInsert scoreGE selectorEntryRapid [selectorEntryBlitz] := rfl
  rw [h1]
  exact List.orderedInsert_of_le scoreGE [] (le_refl selectorEntryRapid.score)

/-- Witness for C5: the sentinel on an all-ineligible player, the
exclusion of the 3-game bullet format, and the ranked result on a player
with two eligible formats. -/
theorem riskScore_selector_witness :
    (calculateRiskScore noneEligibleMetrics =
        noRatedGamesResult (calculateAccountAgeFactor noneEligibleMetrics.accountAge)
          noneEligibleMetrics)
    ∧ ((calculateRiskScore selectorMetrics).maxScore.format ≠ some "chess_bullet"
        ∧ ∀ e ∈ (calculateRiskScore selectorMetrics).otherFormats,
            e.format ≠ "chess_bullet")
    ∧ ((calculateRiskScore selectorMetrics).maxScore =
          ⟨jsRound selectorEntryRapid.score, some selectorEntryRapid.format, none⟩
        ∧ (calculateRiskScore selectorMetrics).otherFormats = [selectorEntryBlitz]
        ∧ (∀ e ∈ riskFormatScores selectorMetrics, e.score ≤ selectorEntryRapid.score)
        ∧ List.Sorted scoreGE [selectorEntryRapid, selectorEntryBlitz]
        ∧ ([selectorEntryRapid, selectorEntryBlitz]).Perm (riskFormatScores selectorMetrics)
        ∧ (∀ s : ℚ,
            ([selectorEntryRapid, selectorEntryBlitz]).filter (fun e => decide (e.score = s)) =
              (riskFormatScores selectorMetrics).filter (fun e => decide (e.score = s)))) :=
  ⟨(riskScore_selector noneEligibleMetrics (by decide)).1 rfl,
   (riskScore_selector selectorMetrics (by decide)).2.1 ("chess_bullet", smallSampleFormat)
     (List.mem_cons_of_mem _ (List.mem_cons_of_mem _ (List.mem_cons_self _ _)))
     (by decide),
   (riskScore_selector selectorMetrics (by decide)).2.2 selectorEntryRapid
     [selectorEntryBlitz] selector_ranked⟩

/-- Overwriting a list element with one that has the same image under `f`
leaves the mapped list unchanged. -/
lemma map_set_eq_of_getElem {α β : Type} (f : α → β) (l : List α) (i : ℕ) (a : α)
    (hi : i < l.length) (ha : f a = f l[i]) :
    (l.set i a).map f = l.map f := by
  apply List.ext_getElem (by simp)
  intro n h1 h2
  rw [List.getElem_map, List.getElem_map, List.getElem_set]
  split_ifs with h
  · subst h; exact ha
  · rfl

/-- C9 (amended) — `addToHistory` keeps the history at ≤ 50 entries
with pairwise distinct case-insensitive usernames; a repeat analysis of a
present username overwrites that username's single entry **in place**
(keeping its old position); an absent username is prepended and the list
truncated to 50 — so the order is most-recently-**added** first, not
most-recently-updated first. -/
theorem addToHistory_upsert (opponentData : OpponentData)
    (opponentHistory : List HistoryEntry)
    (hlen : opponentHistory.length ≤ 50)
    (hnd : (opponentHistory.map fun h => jsToLower h.username).Nodup) :
    (addToHistory opponentData opponentHistory).length ≤ 50
    ∧ ((addToHistory opponentData opponentHistory).map
        fun h => jsToLower h.username).Nodup
    ∧ ((∀ h ∈ opponentHistory, jsToLower h.username ≠ jsToLower opponentData.username) →
        addToHistory opponentData opponentHistory =
          (historyEntryOf opponentData :: opponentHistory).take 50)
    ∧ (∀ i : ℕ, ∀ hi : i < opponentHistory.length,
        jsToLower opponentHistory[i].username = jsToLower opponentData.username →
        addToHistory opponentData opponentHistory =
          opponentHistory.set i (historyEntryOf opponentData)) := by
  by_cases hfound :
      opponentHistory.findIdx (matchesUsername opponentData) < opponentHistory.length
  · -- an entry with the same case-insensitive username exists: update in place
    have hres : addToHistory opponentData opponentHistory =
        opponentHistory.set (opponentHistory.findIdx (matchesUsername opponentData))
          (historyEntryOf opponentData) := by
      simp only [addToHistory]
      rw [if_pos hfound]
    have hpidx : matchesUsername opponentData
        opponentHistory[opponentHistory.findIdx (matchesUsername opponentData)] :=
      List.findIdx_getElem
    have hkeyidx : jsToLower (historyEntryOf opponentData).username =
        jsToLower
          opponentHistory[opponentHistory.findIdx (matchesUsername opponentData)].username := by
      have := (beq_iff_eq).mp hpidx
      rw [historyEntryOf]
      exact this.symm
    have hmap : ((addToHistory opponentData opponentHistory).map
        fun h => jsToLower h.username) =
          opponentHistory.map fun h => jsToLower h.username := by
      rw [hres]
      exact map_set_eq_of_getElem _ _ _ _ hfound hkeyidx
    refine ⟨?_, ?_, ?_, ?_⟩
    · rw [hres, List.length_set]; exact hlen
    · rw [hmap]; exact hnd
    · intro hall
      exfalso
      obtain ⟨x, hx, hpx⟩ := List.findIdx_lt_length.mp hfound
      exact hall x hx ((beq_iff_eq).mp hpx)
    · intro i hi hkey
      rw [hres]
      congr 1
      rw [List.findIdx_eq hi]
      refine ⟨by rw [matchesUsername]; exact (beq_iff_eq).mpr hkey, fun j hji => ?_⟩
      by_contra hpj
      rw [Bool.not_eq_false, matchesUsername] at hpj
      have hjl : j < opponentHistory.length := lt_trans hji hi
      have hkeyj : jsToLower (opponentHistory[j]).username =
          jsToLower opponentData.username := (beq_iff_eq).mp hpj
      have hji' : j < (opponentHistory.map fun h => jsToLower h.username).length := by
        rw [List.length_map]; exact lt_trans hji hi
      have hii' : i < (opponentHistory.map fun h => jsToLower h.username).length := by
        rw [List.length_map]; exact hi
      have heq : (opponentHistory.map fun h => jsToLower h.username)[j] =
          (opponentHistory.map fun h => jsToLower h.username)[i] := by
        rw [List.getElem_map, List.getElem_map, hkeyj, hkey]
      have : j = i := (hnd.getElem_inj_iff).mp heq
      omega
  · -- no matching entry: prepend and truncate
    have hp : ∀ x ∈ opponentHistory, ¬ matchesUsername opponentData x := by
      intro x hx hpx
      have hidx : opponentHistory.findIdx (matchesUsername opponentData) <
          opponentHistory.length :=
        List.findIdx_lt_length.mpr ⟨x, hx, hpx⟩
      exact hfound hidx
    have hres : addToHistory opponentData opponentHistory =
        if 50 < opponentHistory.length + 1 then
          (historyEntryOf opponentData :: opponentHistory).take 50
        else historyEntryOf opponentData :: opponentHistory := by
      simp only [addToHistory]
      rw [if_neg hfound]
      rfl
    have hkeynew : jsToLower (historyEntryOf opponentData).username =
        jsToLower opponentData.username := rfl
    have hnotmem : jsToLower opponentData.username ∉
        opponentHistory.map fun h => jsToLower h.username := by
      intro hmem
      obtain ⟨x, hx, hxeq⟩ := List.mem_map.mp hmem
      exact hp x hx ((beq_iff_eq).mpr hxeq)
    have hconsnd : ((historyEntryOf opponentData :: opponentHistory).map
        fun h => jsToLower h.username).Nodup := by
      rw [List.map_cons, hkeynew]
      exact List.Nodup.cons hnotmem hnd
    refine ⟨?_, ?_, ?_, ?_⟩
    · rw [hres]
      split_ifs with h50
      · rw [List.length_take]
        exact min_le_left _ _
      · simpa using Nat.lt_succ_iff.mp (Nat.not_lt.mp h50 |> Nat.lt_succ_of_le)
    · rw [hres]
      split_ifs with h50
      · rw [List.map_take]
        exact List.Nodup.sublist (List.take_sublist _ _) hconsnd
      · exact hconsnd
    · intro _
      rw [hres]
      split_ifs with h50
      · rfl
      · rw [List.take_of_length_le]
        simpa using Nat.not_lt.mp h50
    · intro i hi hkey
      exfalso
      exact hp opponentHistory[i] (List.getElem_mem hi)
        ((beq_iff_eq).mpr hkey)

/-- History state for the counterexample: Bob analyzed after Alice. -/
def historyEntryBob : HistoryEntry :=
  ⟨"Bob", 10, some "chess_blitz", RISK_LEVELS.LOW, "2024-01-02"⟩

def historyEntryAlice : HistoryEntry :=
  ⟨"Alice", 20, some "chess_rapid", RISK_LEVELS.LOW, "2024-01-01"⟩

/-- A fresh analysis of Alice (same username up to case). -/
def opponentAlice : OpponentData :=
  ⟨"alice", 95, some "chess_bullet", RISK_LEVELS.VERY_HIGH, "2024-01-03"⟩

/-- C9 (counterexample) — re-analyzing Alice while Bob's entry is at
the head updates Alice's entry in place at position 1: the most recently
*updated* entry is not first, contradicting the claim that entries are
ordered most recently added/updated first. -/
theorem addToHistory_update_keeps_position :
    addToHistory opponentAlice [historyEntryBob, historyEntryAlice] =
      [historyEntryBob, historyEntryOf opponentAlice]
    ∧ (addToHistory opponentAlice [historyEntryBob, historyEntryAlice]).head? ≠
        some (historyEntryOf opponentAlice) := by decide

/-- Witness for C9 (amended) at the two-entry history. -/
theorem addToHistory_upsert_witness :
    (addToHistory opponentAlice [historyEntryBob, historyEntryAlice]).length ≤ 50
    ∧ ((addToHistory opponentAlice [historyEntryBob, historyEntryAlice]).map
        fun h => jsToLower h.username).Nodup
    ∧ ((∀ h ∈ [historyEntryBob, historyEntryAlice],
          jsToLower h.username ≠ jsToLower opponentAlice.username) →
        addToHistory opponentAlice [historyEntryBob, historyEntryAlice] =
          (historyEntryOf opponentAlice :: [historyEntryBob, historyEntryAlice]).take 50)
    ∧ (∀ i : ℕ, ∀ hi : i < ([historyEntryBob, historyEntryAlice] : List HistoryEntry).length,
        jsToLower (([historyEntryBob, historyEntryAlice] : List HistoryEntry)[i]).username =
          jsToLower opponentAlice.username →
        addToHistory opponentAlice [historyEntryBob, historyEntryAlice] =
          ([historyEntryBob, historyEntryAlice] : List HistoryEntry).set i
            (historyEntryOf opponentAlice)) :=
  addToHistory_upsert opponentAlice [historyEntryBob, historyEntryAlice]
    (by decide) (by decide)

end ChessAntiCheat
